import Mathlib

/-!
# Chirpy: verification of the HTTP handler layer

Shallow embedding of the Chirpy server handlers.  Request bodies that the
chirp validators inspect character by character are modelled as `List Char`
(Go strings are byte strings; all inputs of interest here are ASCII, and
`goLen` counts UTF-8 bytes exactly as Go `len` does).  Opaque tokens,
e-mails and messages are modelled as Lean strings.
-/

namespace Chirpy

/-- Go `strings.ToLower`, restricted to the ASCII case mapping (the inputs
the handlers compare against are the ASCII words kerfuffle/sharbert/fornax). -/
def goToLower (s : List Char) : List Char :=
  s.map Char.toLower

/-- Splitting a list at every character satisfying `p`, keeping empty
pieces, exactly as Go `strings.Split` does for a one-character separator
(`goSplitOnP (fun c => c == sep)`). `goSplitOnP p [] = [[]]`, matching
Go `strings.Split("", sep) = [""]`. -/
def goSplitOnP (p : Char → Bool) : List Char → List (List Char)
  | [] => [[]]
  | c :: rest =>
    let r := goSplitOnP p rest
    if p c then [] :: r
    else (c :: r.headD []) :: r.tail

/-- Go `strings.Split(s, " ")`. -/
def goSplitSpace (s : List Char) : List (List Char) :=
  goSplitOnP (fun c => c == ' ') s

/-- Go `strings.Join(ws, " ")`. -/
def goJoinSpace (ws : List (List Char)) : List Char :=
  (ws.intersperse [' ']).flatten

/-- The characters with the Unicode White_Space property: the exact set
Go `unicode.IsSpace` accepts — within ASCII also vertical tab (0x0B) and
form feed (0x0C), beyond it NEL, NBSP and the Unicode space separators. -/
def goSpaceList : List Char :=
  ['\t', '\n', '\x0B', '\x0C', '\r', ' ', '\x85', '\xA0', '\u1680',
   '\u2000', '\u2001', '\u2002', '\u2003', '\u2004', '\u2005', '\u2006',
   '\u2007', '\u2008', '\u2009', '\u200A', '\u2028', '\u2029', '\u202F',
   '\u205F', '\u3000']

/-- Go `unicode.IsSpace`. -/
def goIsSpace (c : Char) : Bool :=
  decide (c ∈ goSpaceList)

/-- Go `strings.Fields`: split around runs of `unicode.IsSpace`
whitespace, dropping empty pieces. -/
def goFields (s : List Char) : List (List Char) :=
  (goSplitOnP goIsSpace s).filter (fun w => !w.isEmpty)

/-- Go `strings.TrimSpace`: drop leading and trailing `unicode.IsSpace`
whitespace. -/
def goTrim (s : List Char) : List Char :=
  ((s.dropWhile goIsSpace).reverse.dropWhile goIsSpace).reverse

/-- Go `len` on a string: number of UTF-8 bytes. -/
def goLen (s : List Char) : Nat :=
  (s.map Char.utf8Size).sum

/-- The ASCII characters of Unicode category P (punctuation): what Go
`unicode.IsPunct` accepts within ASCII.  (`$ + < = > ^ \x60 | ~` are symbols,
not punctuation.) -/
def punctList : List Char :=
  ['!', '\x22', '#', '%', '&', '\x27', '(', ')', '*', ',', '-', '.', '/',
   ':', ';', '?', '@', '[', '\\', ']', '_', '\x7b', '\x7d']

/-- Go `unicode.IsPunct`, on the ASCII range (the only range the proofs
about banned words need; banned words are ASCII letters). -/
def isPunct (c : Char) : Bool :=
  decide (c ∈ punctList)

/-- `hasPunctuation` from the source: true iff some character of the word
is punctuation. -/
def hasPunctuation (word : List Char) : Bool :=
  word.any isPunct

/-- `contains` helper from the source: linear scan for an exact match. -/
def contains (list : List (List Char)) (word : List Char) : Bool :=
  list.any (fun item => item == word)

/-- `prohibitedWords` from the source (a slice of strings). -/
def prohibitedWords : List (List Char) :=
  ["kerfuffle".toList, "sharbert".toList, "fornax".toList]

/-- `bannedWords` from `handlerChirpsValidate` (a set of strings, modelled
by the list of its keys; only membership is used). -/
def bannedWords : List (List Char) :=
  ["kerfuffle".toList, "sharbert".toList, "fornax".toList]

/-- Outcome of a chirp-validation request: 200 with a cleaned body, or an
error status with a message.  JSON decoding of the request is outside the
model; the decoded body is the input. -/
inductive ChirpResult where
  | ok (cleaned : List Char)
  | reject (status : Nat) (msg : String)
deriving DecidableEq

/-- Whether a `ChirpResult` is the 200/accepted outcome. -/
def ChirpResult.accepted : ChirpResult → Bool
  | .ok _ => true
  | .reject _ _ => false

/-- `handlerChirpsValidate`: rejects bodies longer than 140 bytes with 400,
otherwise splits on single spaces, replaces words whose lowercase form is a
banned word by `****`, and rejoins with single spaces. -/
def handlerChirpsValidate (body : List Char) : ChirpResult :=
  if goLen body > 140 then .reject 400 "Chirp is too long"
  else
    let words := goSplitSpace body
    let cleanedWords := words.map (fun w =>
      if contains bannedWords (goToLower w) then "****".toList else w)
    .ok (goJoinSpace cleanedWords)

/-- `validateChirp` (the earlier implementation): trims the body, rejects
empty bodies, splits into whitespace-separated fields, masks prohibited
words that carry no punctuation, rejects trimmed bodies of 140 bytes or
more, and rejoins the fields with single spaces. -/
def validateChirp (rawBody : List Char) : ChirpResult :=
  let body := goTrim rawBody
  if body = [] then .reject 400 "Body cannot be empty"
  else
    let words := goFields body
    let modifiedWords := words.map (fun w =>
      if contains prohibitedWords (goToLower w) && !hasPunctuation w
      then "****".toList else w)
    let modifiedBody := goJoinSpace modifiedWords
    if goLen body ≥ 140 then .reject 400 "Chirp is too long"
    else .ok modifiedBody

/-- The cleaning transform as claim C9 words it: split on single spaces,
replace every word case-insensitively equal to kerfuffle, sharbert or
fornax by `****`, keep all other words and the spacing. -/
def cleanedPerSpec (body : List Char) : List Char :=
  goJoinSpace ((goSplitSpace body).map (fun w =>
    if goToLower w == "kerfuffle".toList || goToLower w == "sharbert".toList
       || goToLower w == "fornax".toList
    then "****".toList else w))

/-! ## Bearer credential extraction and access tokens

`internal/auth` is not part of the handler sources; its operations are
modelled from the spec (sections 4.2 and 4.4). -/

/-- Decidable equality for `Except`, used to evaluate handler outcomes on
concrete inputs. -/
def exceptDecEq {ε α : Type} [DecidableEq ε] [DecidableEq α] :
    (a b : Except ε α) → Decidable (a = b)
  | .error x, .error y =>
    if h : x = y then .isTrue (congrArg Except.error h)
    else .isFalse (fun hh => h (by injection hh))
  | .error _, .ok _ => .isFalse (fun hh => Except.noConfusion hh)
  | .ok _, .error _ => .isFalse (fun hh => Except.noConfusion hh)
  | .ok x, .ok y =>
    if h : x = y then .isTrue (congrArg Except.ok h)
    else .isFalse (fun hh => h (by injection hh))

instance {ε α : Type} [DecidableEq ε] [DecidableEq α] :
    DecidableEq (Except ε α) := exceptDecEq

/-- Failures of the bearer credential extractor. -/
inductive ExtractErr where
  | missingHeader
  | malformedHeader
deriving DecidableEq

/-- Modelled from the spec: `auth.GetBearerToken` (Bearer Credential
Extractor, spec 4.4).  Requires an `Authorization` header of the literal
form `Bearer <token>`: `MissingHeader` if the header is absent,
`MalformedHeader` if the case-sensitive scheme prefix with its single
space does not match or the remainder is empty. -/
def GetBearerToken (authHeader : Option String) : Except ExtractErr String :=
  match authHeader with
  | none => .error .missingHeader
  | some v =>
    match v.toList with
    | 'B' :: 'e' :: 'a' :: 'r' :: 'e' :: 'r' :: ' ' :: rest =>
      if rest = [] then .error .malformedHeader else .ok (String.mk rest)
    | _ => .error .malformedHeader

/-- Access-token claims (spec 4.2): subject, issued-at, expires-at, issuer
tag.  Times are in seconds. -/
structure JWTClaims where
  subject : Nat
  issuedAt : Int
  expiresAt : Int
  issuer : String
deriving DecidableEq

/-- Modelled from the spec: an issued access token.  `auth.MakeJWT` is not
in the sources; the serialized signed token string is represented by its
decoded claims together with the key it was signed with (serialization is
injective and not modelled; `key` stands for the signature). -/
structure JWTToken where
  claims : JWTClaims
  key : String
deriving DecidableEq

/-- Failures of access-token verification (spec 4.2). -/
inductive JWTError where
  | malformed
  | invalidSignature
  | expired
  | wrongIssuer
deriving DecidableEq

/-- Modelled from the spec: `auth.MakeJWT` (Access Token Codec `Issue`,
spec 4.2): claims are subject, issuedAt = now, expiresAt = now + ttl and
the issuer tag, signed with the given key. -/
def MakeJWT (userID : Nat) (secret : String) (ttl : Int) (now : Int) : JWTToken :=
  ⟨⟨userID, now, now + ttl, "chirpy"⟩, secret⟩

/-- Modelled from the spec: access-token verification on a decoded token
(Access Token Codec `Verify`, spec 4.2): signature first, then strict
expiry (`expiresAt > now`, the boundary `expiresAt == now` is expired),
then the issuer tag. -/
def verifyJWTToken (t : JWTToken) (secret : String) (now : Int) : Except JWTError Nat :=
  if t.key != secret then .error .invalidSignature
  else if t.claims.expiresAt ≤ now then .error .expired
  else if t.claims.issuer != "chirpy" then .error .wrongIssuer
  else .ok t.claims.subject

/-- Parse a decimal digit. -/
def digitVal (c : Char) : Option Nat :=
  if c.isDigit then some (c.toNat - 48) else none

/-- Parse a run of decimal digits, most significant first. -/
def parseNatAux : List Char → Nat → Option Nat
  | [], acc => some acc
  | c :: cs, acc =>
    match digitVal c with
    | none => none
    | some d => parseNatAux cs (acc * 10 + d)

/-- Parse a nonempty decimal numeral. -/
def parseNat (s : List Char) : Option Nat :=
  if s = [] then none else parseNatAux s 0

/-- Parse a decimal integer with an optional leading minus sign. -/
def parseInt (s : List Char) : Option Int :=
  match s with
  | '-' :: rest => (parseNat rest).map (fun n => -(n : Int))
  | _ => (parseNat s).map (fun n => (n : Int))

/-- Modelled from the spec: parsing a transported token string back into a
token.  A concrete injective format `subject|issuedAt|expiresAt|issuer|key`
stands in for the signed-claims wire format. -/
def decodeJWT (s : String) : Option JWTToken :=
  match goSplitOnP (fun c => c == '|') s.toList with
  | [a, b, c, d, e] => do
    let subj ← parseNat a
    let iat ← parseInt b
    let expAt ← parseInt c
    pure ⟨⟨subj, iat, expAt, String.mk d⟩, String.mk e⟩
  | _ => none

/-- Modelled from the spec: `auth.ValidateJWT` on a token string: decoding
failure rejects the token, otherwise the checks of `verifyJWTToken`. -/
def ValidateJWT (s : String) (secret : String) (now : Int) : Except JWTError Nat :=
  match decodeJWT s with
  | none => .error .malformed
  | some t => verifyJWTToken t secret now

/-! ## Users and the credential manager -/

/-- A stored user record (only the fields the handlers read). -/
structure UserRec where
  id : Nat
  email : String
  hashedPassword : String
deriving DecidableEq

/-- Modelled from the spec: `auth.HashPassword` (Credential Manager
`Hash`, spec 4.1).  The salted hash is abstracted by an injective tagging
of the plaintext; only `CheckPasswordHash` inspects it. -/
def HashPassword (password : String) : String :=
  "bcrypt$" ++ password

/-- Modelled from the spec: `auth.CheckPasswordHash` (Credential Manager
`Verify`, spec 4.1): true exactly when the hash is the hash of the
password. -/
def CheckPasswordHash (password hash : String) : Bool :=
  hash == HashPassword password

/-! ## Refresh token store

The `database` queries on refresh tokens are SQL outside the sources;
they are modelled from the spec (section 4.3). -/

/-- A persisted refresh-token record: opaque token string, owning user,
expiry, and the nullable revocation time. -/
structure RefreshRec where
  token : String
  userId : Nat
  expiresAt : Int
  revokedAt : Option Int
deriving DecidableEq

/-- Failures of the refresh token store (spec 4.3). -/
inductive StoreErr where
  | notFound
  | revoked
  | expired
deriving DecidableEq

/-- Modelled from the spec: `database.GetUserFromRefreshToken` (Refresh
Token Store `Resolve`, spec 4.3): `NotFound` if no record holds the token,
`Revoked` if `revokedAt` is set, `Expired` if `now >= expiresAt`,
otherwise the owning user. -/
def resolveRefreshToken (store : List RefreshRec) (tok : String) (now : Int) :
    Except StoreErr Nat :=
  match store.find? (fun r => r.token == tok) with
  | none => .error .notFound
  | some r =>
    match r.revokedAt with
    | some _ => .error .revoked
    | none => if now ≥ r.expiresAt then .error .expired else .ok r.userId

/-- Modelled from the spec: `database.RevokeRefreshToken` (Refresh Token
Store `Revoke`, spec 4.3): `NotFound` for an absent record, a no-op
success for an already-revoked record, otherwise sets `revokedAt = now`. -/
def revokeRefreshToken (store : List RefreshRec) (tok : String) (now : Int) :
    Except StoreErr (List RefreshRec) :=
  match store.find? (fun r => r.token == tok) with
  | none => .error .notFound
  | some r =>
    match r.revokedAt with
    | some _ => .ok store
    | none => .ok (store.map (fun x =>
        if x.token == tok then { x with revokedAt := some now } else x))

/-! ## Session handlers -/

/-- Response of `handlerLogin`: 200 with the user, access token and
refresh token, or an error status with a message (`respondWithError` is
modelled from the spec as status plus message; internal error detail never
reaches the client). -/
inductive LoginResp where
  | ok (user : UserRec) (token : JWTToken) (refreshToken : String)
  | err (status : Nat) (msg : String)
deriving DecidableEq

/-- `handlerLogin`: looks the user up by e-mail, verifies the password
(both failures answered by the same 401), issues a one-hour access token,
and persists a refresh-token record expiring 60 days from now with no
revocation time.  `newTok` is the random opaque string `MakeRefreshToken`
produced; times are seconds. -/
def handlerLogin (db : List UserRec) (store : List RefreshRec)
    (email password secret : String) (now : Int) (newTok : String) :
    LoginResp × List RefreshRec :=
  match db.find? (fun u => u.email == email) with
  | none => (.err 401 "Incorrect email or password", store)
  | some user =>
    if CheckPasswordHash password user.hashedPassword then
      let accessToken := MakeJWT user.id secret 3600 now
      (.ok user accessToken newTok,
       store ++ [⟨newTok, user.id, now + 60 * 24 * 3600, none⟩])
    else (.err 401 "Incorrect email or password", store)

/-- Response of `handlerRefresh`: 200 with a new access token, or an error
status with a message. -/
inductive RefreshResp where
  | ok (token : JWTToken)
  | err (status : Nat) (msg : String)
deriving DecidableEq

/-- The HTTP status an answer of the refresh endpoint carries. -/
def RefreshResp.status : RefreshResp → Nat
  | .ok _ => 200
  | .err s _ => s

/-- `handlerRefresh`: extracts the bearer refresh token (failure answered
with 400), resolves it in the store (failure answered with 401), and on
success answers 200 with a fresh one-hour access token for the resolved
user; the store is never written. -/
def handlerRefresh (authHeader : Option String) (store : List RefreshRec)
    (secret : String) (now : Int) : RefreshResp × List RefreshRec :=
  match GetBearerToken authHeader with
  | .error _ => (.err 400 "Couldn\x27t find token", store)
  | .ok refreshToken =>
    match resolveRefreshToken store refreshToken now with
    | .error _ => (.err 401 "Couldn\x27t get user for refresh token", store)
    | .ok uid => (.ok (MakeJWT uid secret 3600 now), store)

/-- Response of `handlerRevoke`: 204 No Content, or an error status with a
message. -/
inductive RevokeResp where
  | noContent
  | err (status : Nat) (msg : String)
deriving DecidableEq

/-- The HTTP status an answer of the revoke endpoint carries. -/
def RevokeResp.status : RevokeResp → Nat
  | .noContent => 204
  | .err s _ => s

/-- `handlerRevoke`: extracts the bearer refresh token (failure answered
with 400) and revokes it in the store; any store failure is answered with
500. -/
def handlerRevoke (authHeader : Option String) (store : List RefreshRec)
    (now : Int) : RevokeResp × List RefreshRec :=
  match GetBearerToken authHeader with
  | .error _ => (.err 400 "Couldn\x27t find token", store)
  | .ok refreshToken =>
    match revokeRefreshToken store refreshToken now with
    | .error _ => (.err 500 "Couldn\x27t revoke session", store)
    | .ok newStore => (.noContent, newStore)

/-! ## Chirp deletion and admin reset -/

/-- A plain HTTP response: status code and message body. -/
structure HttpResp where
  status : Nat
  body : String
deriving DecidableEq

/-- A stored chirp (the fields `deleteChirpHandler` reads: identifier and
owner; identifiers model the UUIDs). -/
structure Chirp where
  id : Nat
  owner : Nat
  body : String
deriving DecidableEq

/-- `deleteChirpHandler`: DELETE only; extract and validate the JWT (401
on failure), parse the chirp identifier from the path (400 on failure),
look the chirp up (404 if absent), answer 403 if the requester does not
own it, otherwise delete it and answer 204.  Returns the response and the
chirp store after the request. -/
def deleteChirpHandler (method : String) (authHeader : Option String)
    (secret : String) (now : Int) (chirpIDStr : String)
    (chirps : List Chirp) : HttpResp × List Chirp :=
  if method != "DELETE" then (⟨405, "Method not allowed"⟩, chirps)
  else
    match GetBearerToken authHeader with
    | .error _ => (⟨401, "Missing or invalid token"⟩, chirps)
    | .ok tokenStr =>
      match ValidateJWT tokenStr secret now with
      | .error _ => (⟨401, "Invalid token"⟩, chirps)
      | .ok userID =>
        match parseNat chirpIDStr.toList with
        | none => (⟨400, "Invalid chirp ID"⟩, chirps)
        | some chirpID =>
          match chirps.find? (fun c => c.id == chirpID) with
          | none => (⟨404, "Chirp not found"⟩, chirps)
          | some chirp =>
            if chirp.owner != userID then
              (⟨403, "You are not the owner of this chirp"⟩, chirps)
            else (⟨204, ""⟩, chirps.filter (fun c => c.id != chirpID))

/-- `resetHandler` (the `PLATFORM`-guarded version): POST only; answers
403 outside the dev environment without touching any state; in dev it
deletes all users and zeroes the hit counter (`DB.Reset` is modelled from
the spec as deleting every user; `resetOk` is its success).  Returns the
response, the hit counter and the user table after the request. -/
def resetHandler (method platform : String) (hits : Int)
    (users : List UserRec) (resetOk : Bool) : HttpResp × Int × List UserRec :=
  if method != "POST" then (⟨405, "Method not allowed"⟩, hits, users)
  else if platform != "dev" then
    (⟨403, "Forbidden: reset allowed only in dev environment"⟩, hits, users)
  else if resetOk then (⟨200, "Counter reset"⟩, 0, [])
  else (⟨500, "Failed to delete users"⟩, hits, users)

/-! ## Theorems -/

/-- Claim C7: verifying a token issued as `Issue(S, K, ttl)` with the same
key `K` returns `S` whenever the current time is before `issuedAt + ttl`,
and returns `Expired` once the current time is at or past `issuedAt + ttl`
(the boundary `expiresAt == now` counts as expired). -/
theorem jwt_roundtrip (S : Nat) (K : String) (ttl now0 now : Int) :
    verifyJWTToken (MakeJWT S K ttl now0) K now
      = if now < now0 + ttl then .ok S else .error .expired := by
  unfold MakeJWT verifyJWTToken
  by_cases h : now0 + ttl ≤ now
  · simp [h, if_neg (by omega : ¬ now < now0 + ttl)]
  · simp [h, if_pos (by omega : now < now0 + ttl)]

/-- Claim C2: whether the e-mail is unknown or the password verification
fails, `handlerLogin` answers with the one undifferentiated 401 response
carrying the identical message, so a caller cannot distinguish the two
failure modes. -/
theorem login_indistinguishable_failure
    (db : List UserRec) (store : List RefreshRec)
    (email password secret : String) (now : Int) (newTok : String)
    (h : db.find? (fun u => u.email == email) = none ∨
         ∃ u, db.find? (fun u => u.email == email) = some u ∧
              CheckPasswordHash password u.hashedPassword = false) :
    (handlerLogin db store email password secret now newTok).1
      = .err 401 "Incorrect email or password" := by
  rcases h with h | ⟨u, hu, hpw⟩
  · simp [handlerLogin, h]
  · simp [handlerLogin, hu, hpw]

/-- Witness for the login-indistinguishability theorem: a registered user
with a wrong password receives the undifferentiated 401. -/
theorem login_indistinguishable_failure_witness :
    (handlerLogin [⟨1, "a@b.c", HashPassword "pw"⟩] [] "a@b.c" "wrong" "k" 0 "rt").1
      = .err 401 "Incorrect email or password" :=
  login_indistinguishable_failure _ _ _ _ _ _ _
    (Or.inr ⟨⟨1, "a@b.c", HashPassword "pw"⟩, by decide, by decide⟩)

/-- Claim C5: a successful login appends exactly one refresh-token record,
with `expiresAt` equal to the issuance time plus 60 days (in seconds) and
`revokedAt` null. -/
theorem login_persists_refresh_record
    (db : List UserRec) (store : List RefreshRec)
    (email password secret : String) (now : Int) (newTok : String) (u : UserRec)
    (hfind : db.find? (fun x => x.email == email) = some u)
    (hpw : CheckPasswordHash password u.hashedPassword = true) :
    (handlerLogin db store email password secret now newTok).2
      = store ++ [⟨newTok, u.id, now + 60 * 24 * 3600, none⟩] := by
  simp [handlerLogin, hfind, hpw]

/-- Witness for the login-persistence theorem at a concrete login. -/
theorem login_persists_refresh_record_witness :
    (handlerLogin [⟨1, "a@b.c", HashPassword "pw"⟩] [] "a@b.c" "pw" "k" 100 "rt1").2
      = [] ++ [⟨"rt1", 1, 100 + 60 * 24 * 3600, none⟩] :=
  login_persists_refresh_record _ _ _ _ _ _ _ ⟨1, "a@b.c", HashPassword "pw"⟩
    (by decide) (by decide)

/-- Claim C3: a successful refresh answers 200 with a fresh access token
whose subject is the user the refresh token resolved to, and the refresh
store is returned unchanged: no record is rotated, reissued or mutated. -/
theorem refresh_frame_and_subject
    (authHeader : Option String) (store : List RefreshRec)
    (secret : String) (now : Int) (tok : String) (uid : Nat)
    (hextract : GetBearerToken authHeader = .ok tok)
    (hresolve : resolveRefreshToken store tok now = .ok uid) :
    handlerRefresh authHeader store secret now
      = (.ok (MakeJWT uid secret 3600 now), store)
    ∧ (MakeJWT uid secret 3600 now).claims.subject = uid := by
  refine ⟨?_, rfl⟩
  simp [handlerRefresh, hextract, hresolve]

/-- Witness for the refresh frame theorem at a concrete valid refresh. -/
theorem refresh_frame_and_subject_witness :
    handlerRefresh (some "Bearer rt1") [⟨"rt1", 1, 999, none⟩] "k" 5
      = (.ok (MakeJWT 1 "k" 3600 5), [⟨"rt1", 1, 999, none⟩])
    ∧ (MakeJWT 1 "k" 3600 5).claims.subject = 1 :=
  refresh_frame_and_subject _ _ _ _ "rt1" 1 (by decide) (by decide)

/-- Claim C6, corrected: counterexample to the claim as stated.  A refresh
request with no `Authorization` header is answered with status 400, not
401. -/
theorem refresh_missing_header_gives_400 :
    (handlerRefresh none [] "k" 0).1.status = 400
    ∧ ¬ (handlerRefresh none [] "k" 0).1.status = 401 := by decide

/-- Claim C6, amended: the refresh endpoint maps a missing or malformed
`Authorization` header to 400, any refresh-token resolution failure
(unknown, revoked or expired token) to 401, and success to 200; those
three are its only statuses. -/
theorem refresh_status_mapping
    (authHeader : Option String) (store : List RefreshRec)
    (secret : String) (now : Int) :
    ((handlerRefresh authHeader store secret now).1.status
      = match GetBearerToken authHeader with
        | .error _ => 400
        | .ok tok =>
          match resolveRefreshToken store tok now with
          | .error _ => 401
          | .ok _ => 200)
    ∧ ((handlerRefresh authHeader store secret now).1.status = 200
       ∨ (handlerRefresh authHeader store secret now).1.status = 400
       ∨ (handlerRefresh authHeader store secret now).1.status = 401) := by
  unfold handlerRefresh
  cases hb : GetBearerToken authHeader with
  | error e => simp [RefreshResp.status]
  | ok tok =>
    cases hr : resolveRefreshToken store tok now with
    | error e => simp [hr, RefreshResp.status]
    | ok uid => simp [hr, RefreshResp.status]

/-- Claim C4, corrected: counterexample to the claim as stated.  Revoking
a token with no record is answered with status 500, not a not-found
status. -/
theorem revoke_nonexistent_gives_500 :
    (handlerRevoke (some "Bearer t") ([] : List RefreshRec) 5).1.status = 500
    ∧ ¬ (handlerRevoke (some "Bearer t") ([] : List RefreshRec) 5).1.status = 404 := by
  decide

/-- Claim C4, amended: revoking a token whose record exists and is
unrevoked sets `revokedAt` to now and succeeds with 204; revoking an
already-revoked token is a no-op success; but revoking a nonexistent token
is a store `NotFound` that the handler maps to status 500, not to a
not-found status. -/
theorem revoke_behaviour
    (authHeader : Option String) (store : List RefreshRec) (now : Int)
    (tok : String)
    (hextract : GetBearerToken authHeader = .ok tok) :
    (∀ r, store.find? (fun x => x.token == tok) = some r → r.revokedAt = none →
       handlerRevoke authHeader store now
         = (.noContent, store.map (fun x =>
             if x.token == tok then { x with revokedAt := some now } else x)))
    ∧ (∀ r t0, store.find? (fun x => x.token == tok) = some r →
         r.revokedAt = some t0 →
       handlerRevoke authHeader store now = (.noContent, store))
    ∧ (store.find? (fun x => x.token == tok) = none →
       handlerRevoke authHeader store now
         = (.err 500 "Couldn\x27t revoke session", store)) := by
  refine ⟨?_, ?_, ?_⟩
  · intro r hr hrev
    simp [handlerRevoke, hextract, revokeRefreshToken, hr, hrev]
  · intro r t0 hr hrev
    simp [handlerRevoke, hextract, revokeRefreshToken, hr, hrev]
  · intro hr
    simp [handlerRevoke, hextract, revokeRefreshToken, hr]

/-- Witness for the revoke behaviour theorem: the three cases at concrete
stores. -/
theorem revoke_behaviour_witness :
    handlerRevoke (some "Bearer t") [⟨"t", 1, 9, none⟩] 5
      = (.noContent, [⟨"t", 1, 9, some 5⟩])
    ∧ handlerRevoke (some "Bearer t") [⟨"t", 1, 9, some 2⟩] 5
      = (.noContent, [⟨"t", 1, 9, some 2⟩])
    ∧ handlerRevoke (some "Bearer t") ([] : List RefreshRec) 5
      = (.err 500 "Couldn\x27t revoke session", []) := by
  refine ⟨?_, ?_, ?_⟩
  · exact ((revoke_behaviour (some "Bearer t") [⟨"t", 1, 9, none⟩] 5 "t"
      (by decide)).1 ⟨"t", 1, 9, none⟩ (by decide) rfl).trans (by decide)
  · exact (revoke_behaviour (some "Bearer t") [⟨"t", 1, 9, some 2⟩] 5 "t"
      (by decide)).2.1 ⟨"t", 1, 9, some 2⟩ 2 (by decide) rfl
  · exact (revoke_behaviour (some "Bearer t") [] 5 "t" (by decide)).2.2 (by decide)

/-- Claim C10: the reset endpoint mutates state only in dev: outside dev
it answers 403 leaving the hit counter and the users untouched; in dev,
when the store delete succeeds, it deletes all users, zeroes the counter
and answers 200. -/
theorem reset_only_in_dev
    (platform : String) (hits : Int) (users : List UserRec) (resetOk : Bool) :
    (platform ≠ "dev" →
       resetHandler "POST" platform hits users resetOk
         = (⟨403, "Forbidden: reset allowed only in dev environment"⟩, hits, users))
    ∧ (resetOk = true →
       resetHandler "POST" "dev" hits users resetOk
         = (⟨200, "Counter reset"⟩, 0, [])) := by
  constructor
  · intro h
    simp [resetHandler, h]
  · intro h
    simp [resetHandler, h]

/-- Witness for the reset theorem: a non-dev platform and a dev reset. -/
theorem reset_only_in_dev_witness :
    resetHandler "POST" "prod" 7 [⟨1, "e", "h"⟩] true
      = (⟨403, "Forbidden: reset allowed only in dev environment"⟩, 7, [⟨1, "e", "h"⟩])
    ∧ resetHandler "POST" "dev" 7 [⟨1, "e", "h"⟩] true
      = (⟨200, "Counter reset"⟩, 0, []) :=
  ⟨(reset_only_in_dev "prod" 7 [⟨1, "e", "h"⟩] true).1 (by decide),
   (reset_only_in_dev "dev" 7 [⟨1, "e", "h"⟩] true).2 rfl⟩

/-- Claim C1: when the bearer token validates to subject `S` and the
target chirp exists but is owned by someone else, `deleteChirpHandler`
answers 403 and returns the chirp store unchanged. -/
theorem delete_foreign_chirp_forbidden
    (authHeader : Option String) (secret tok : String) (now : Int) (S : Nat)
    (chirpIDStr : String) (cid : Nat) (chirps : List Chirp) (c : Chirp)
    (hextract : GetBearerToken authHeader = .ok tok)
    (hjwt : ValidateJWT tok secret now = .ok S)
    (hid : parseNat chirpIDStr.toList = some cid)
    (hfind : chirps.find? (fun ch => ch.id == cid) = some c)
    (hown : c.owner ≠ S) :
    deleteChirpHandler "DELETE" authHeader secret now chirpIDStr chirps
      = (⟨403, "You are not the owner of this chirp"⟩, chirps) := by
  simp only [String.toList] at hid
  simp [deleteChirpHandler, hextract, hjwt, hid, hfind, hown]

/-- Witness for the foreign-chirp deletion theorem: a concrete request by
user 7 against a chirp owned by user 9. -/
theorem delete_foreign_chirp_forbidden_witness :
    deleteChirpHandler "DELETE" (some "Bearer 7|0|100|chirpy|k") "k" 50 "3"
        [⟨3, 9, "hi"⟩]
      = (⟨403, "You are not the owner of this chirp"⟩, [⟨3, 9, "hi"⟩]) :=
  delete_foreign_chirp_forbidden _ _ "7|0|100|chirpy|k" _ 7 _ 3 _ ⟨3, 9, "hi"⟩
    (by decide) (by decide) (by decide) (by decide) (by decide)

/-! ### Chirp validation -/

/-- Boolean equality of character lists is symmetric. -/
theorem beq_symm_lc (a b : List Char) : (a == b) = (b == a) := by
  cases hab : a == b <;> cases hba : b == a <;> simp_all

/-- Unfolding `goSplitOnP` on the empty list. -/
theorem goSplitOnP_nil (p : Char → Bool) : goSplitOnP p [] = [[]] := rfl

/-- Unfolding `goSplitOnP` on a cons. -/
theorem goSplitOnP_cons (p : Char → Bool) (c : Char) (rest : List Char) :
    goSplitOnP p (c :: rest)
      = if p c then [] :: goSplitOnP p rest
        else (c :: (goSplitOnP p rest).headD []) :: (goSplitOnP p rest).tail := rfl

/-- Splitting always yields at least one piece. -/
theorem goSplitOnP_ne_nil (p : Char → Bool) (s : List Char) :
    goSplitOnP p s ≠ [] := by
  cases s with
  | nil => simp [goSplitOnP]
  | cons c t =>
    rw [goSplitOnP_cons]
    split <;> simp

/-- Splitting depends on the predicate only through its values on the
characters of the list. -/
theorem goSplitOnP_congr (p q : Char → Bool) (s : List Char)
    (h : ∀ c ∈ s, p c = q c) : goSplitOnP p s = goSplitOnP q s := by
  induction s with
  | nil => rfl
  | cons c t ih =>
    have hc : p c = q c := h c (List.mem_cons_self c t)
    have ht := ih (fun x hx => h x (List.mem_cons_of_mem _ hx))
    rw [goSplitOnP_cons, goSplitOnP_cons, hc, ht]

/-- A list ending in a separator splits into at least two pieces, the
last one empty. -/
theorem goSplitOnP_concat_sep (p : Char → Bool) (s : List Char) (c : Char)
    (hc : p c = true) :
    ∃ l ls, goSplitOnP p (s ++ [c]) = l :: (ls ++ [[]]) := by
  induction s with
  | nil =>
    refine ⟨[], [], ?_⟩
    simp [goSplitOnP_cons, hc, goSplitOnP]
  | cons x t ih =>
    obtain ⟨l, ls, hl⟩ := ih
    by_cases hx : p x
    · refine ⟨[], l :: ls, ?_⟩
      simp [goSplitOnP_cons, hx, hl]
    · refine ⟨x :: l, ls, ?_⟩
      simp [goSplitOnP_cons, hx, hl]

/-- A list ending in a separator has an empty piece among its parts. -/
theorem nil_mem_of_last_sep (p : Char → Bool) (s : List Char) (c : Char)
    (hc : p c = true) : [] ∈ goSplitOnP p (s ++ [c]) := by
  obtain ⟨l, ls, hl⟩ := goSplitOnP_concat_sep p s c hc
  rw [hl]
  exact List.mem_cons_of_mem _ (List.mem_append_right _ (List.mem_singleton.mpr rfl))

/-- A nonempty body whose only `unicode.IsSpace` whitespace is the
single-space separator between nonempty words is already trimmed. -/
theorem goTrim_eq_self (b : List Char) (hne : b ≠ [])
    (h3 : ∀ c ∈ b, goIsSpace c → c = ' ')
    (h4 : ∀ w ∈ goSplitSpace b, w ≠ []) : goTrim b = b := by
  obtain ⟨c, t, rfl⟩ := List.exists_cons_of_ne_nil hne
  have hcws : ¬ goIsSpace c := by
    intro hws
    have hsp := h3 c (List.mem_cons_self c t) hws
    subst hsp
    have : ([] : List Char) ∈ goSplitSpace (' ' :: t) := by
      unfold goSplitSpace
      rw [goSplitOnP_cons]
      simp
    exact h4 [] this rfl
  rcases List.eq_nil_or_concat (c :: t) with hnil | ⟨s, a, hsa⟩
  · exact absurd hnil hne
  · rw [List.concat_eq_append] at hsa
    have haws : ¬ goIsSpace a := by
      intro hws
      have hmem : a ∈ c :: t := by
        rw [hsa]
        exact List.mem_append_right _ (List.mem_singleton.mpr rfl)
      have hsp := h3 a hmem hws
      subst hsp
      have : ([] : List Char) ∈ goSplitSpace (c :: t) := by
        unfold goSplitSpace
        rw [hsa]
        exact nil_mem_of_last_sep _ s ' ' rfl
      exact h4 [] this rfl
    unfold goTrim
    rw [List.dropWhile_cons, if_neg (by simpa using hcws)]
    rw [hsa, List.reverse_append]
    simp only [List.reverse_singleton, List.singleton_append]
    rw [List.dropWhile_cons, if_neg (by simpa using haws)]
    simp

/-- The two banned-word lists of the two implementations are the same. -/
theorem prohibited_eq_banned : prohibitedWords = bannedWords := rfl

/-- No ASCII punctuation character is changed by lowering or occurs in a
banned word. -/
theorem punct_fixed_not_banned :
    ∀ x ∈ punctList, Char.toLower x = x ∧ ∀ bw ∈ bannedWords, x ∉ bw := by
  decide

/-- A word whose lowercase form is a banned word carries no punctuation;
therefore the punctuation guard of `validateChirp` never fires on a
masked word. -/
theorem lower_banned_no_punct (w bw : List Char)
    (hbw : bw ∈ bannedWords) (hl : goToLower w = bw) :
    hasPunctuation w = false := by
  rw [Bool.eq_false_iff]
  intro h
  obtain ⟨c, hcw, hc⟩ := List.any_eq_true.mp h
  have hcp : c ∈ punctList := of_decide_eq_true hc
  have hlc : Char.toLower c ∈ bw := by
    rw [← hl]
    exact List.mem_map_of_mem _ hcw
  obtain ⟨hfix, hnb⟩ := punct_fixed_not_banned c hcp
  rw [hfix] at hlc
  exact hnb bw hbw hlc

/-- A successful linear-scan membership test means list membership. -/
theorem contains_true_mem (l : List (List Char)) (y : List Char)
    (h : contains l y = true) : y ∈ l := by
  obtain ⟨item, hi, he⟩ := List.any_eq_true.mp h
  exact (eq_of_beq he) ▸ hi

/-- Per word, the masking step of `validateChirp` (membership plus
punctuation guard) agrees with the masking step of
`handlerChirpsValidate` (membership only). -/
theorem mask_agree (w : List Char) :
    (if contains prohibitedWords (goToLower w) && !hasPunctuation w
     then "****".toList else w)
      = (if contains bannedWords (goToLower w) then "****".toList else w) := by
  by_cases hb : contains bannedWords (goToLower w) = true
  · have hmem := contains_true_mem _ _ hb
    have hnp := lower_banned_no_punct w (goToLower w) hmem rfl
    rw [prohibited_eq_banned]
    simp [hb, hnp]
  · rw [prohibited_eq_banned]
    simp [hb]

/-- A nonempty list is not `isEmpty`. -/
theorem isEmpty_false_of_ne_nil {w : List Char} (h : w ≠ []) :
    w.isEmpty = false := by
  cases w with
  | nil => exact absurd rfl h
  | cons a t => rfl

/-- On a body whose only `unicode.IsSpace` whitespace is the single-space
separator between nonempty words, whitespace-fields splitting agrees with
single-space splitting. -/
theorem goFields_eq (b : List Char)
    (h3 : ∀ c ∈ b, goIsSpace c → c = ' ')
    (h4 : ∀ w ∈ goSplitSpace b, w ≠ []) :
    goFields b = goSplitSpace b := by
  unfold goFields
  have hcong : goSplitOnP goIsSpace b
      = goSplitOnP (fun c => c == ' ') b := by
    apply goSplitOnP_congr
    intro c hc
    by_cases hws : goIsSpace c
    · have hsp := h3 c hc hws
      subst hsp
      simp [goIsSpace, goSpaceList]
    · have hcs : c ≠ ' ' := by
        intro heq
        subst heq
        exact hws rfl
      simp [hws, hcs]
  rw [hcong]
  apply List.filter_eq_self.mpr
  intro w hw
  simp [isEmpty_false_of_ne_nil (h4 w hw)]

/-- The two copies of the banned-word mismatch test agree: the handler
membership test equals the explicit three-way comparison. -/
theorem contains_banned_eq (y : List Char) :
    contains bannedWords y
      = (y == "kerfuffle".toList || y == "sharbert".toList
         || y == "fornax".toList) := by
  simp only [contains, bannedWords, List.any_cons, List.any_nil, Bool.or_false,
    beq_symm_lc, Bool.or_assoc]

/-- Claim C9: `handlerChirpsValidate` accepts every body of at most 140
bytes (140 included) with 200 and the cleaned body the claim describes —
split on single spaces, every word case-insensitively equal to kerfuffle,
sharbert or fornax replaced by `****`, all other words and spacing
preserved — and rejects longer bodies with 400 before any masking. -/
theorem chirpsValidate_spec (body : List Char) :
    handlerChirpsValidate body
      = if goLen body ≤ 140 then .ok (cleanedPerSpec body)
        else .reject 400 "Chirp is too long" := by
  unfold handlerChirpsValidate cleanedPerSpec
  by_cases h : goLen body ≤ 140
  · rw [if_neg (by omega : ¬ goLen body > 140), if_pos h]
    have hm : (goSplitSpace body).map
        (fun w => if contains bannedWords (goToLower w) then "****".toList else w)
      = (goSplitSpace body).map (fun w =>
          if goToLower w == "kerfuffle".toList || goToLower w == "sharbert".toList
             || goToLower w == "fornax".toList then "****".toList else w) := by
      apply List.map_congr_left
      intro w _
      rw [contains_banned_eq]
    simp only [hm]
  · rw [if_pos (by omega : goLen body > 140), if_neg h]

set_option maxRecDepth 10000 in
/-- Claim C8, corrected: counterexample to the claim as stated.  At the
140-byte limit the two validators disagree: `handlerChirpsValidate`
accepts a 140-byte body, `validateChirp` rejects it. -/
theorem chirp_validators_differ_at_140 :
    (handlerChirpsValidate (List.replicate 140 'a')).accepted = true
    ∧ (validateChirp (List.replicate 140 'a')).accepted = false := by decide

/-- Claim C8, amended: the two validators agree only on restricted
bodies — nonempty, strictly under 140 bytes, whose only Go whitespace
(`unicode.IsSpace`) is the single-space separator between nonempty
words.  There they make the same accept decision and produce the same
cleaned body.  Elsewhere they differ: a body of exactly 140 bytes is
accepted by one and rejected by the other, empty bodies are rejected
only by `validateChirp`, and `validateChirp` collapses whitespace runs
that `handlerChirpsValidate` preserves. -/
theorem chirp_validators_agree (b : List Char)
    (hne : b ≠ []) (hlen : goLen b < 140)
    (h3 : ∀ c ∈ b, goIsSpace c → c = ' ')
    (h4 : ∀ w ∈ goSplitSpace b, w ≠ []) :
    validateChirp b = handlerChirpsValidate b := by
  have htrim : goTrim b = b := goTrim_eq_self b hne h3 h4
  have hfields : goFields b = goSplitSpace b := goFields_eq b h3 h4
  have hmask : (goSplitSpace b).map (fun w =>
      if contains prohibitedWords (goToLower w) && !hasPunctuation w
      then "****".toList else w)
    = (goSplitSpace b).map (fun w =>
      if contains bannedWords (goToLower w) then "****".toList else w) :=
    List.map_congr_left (fun w _ => mask_agree w)
  unfold validateChirp handlerChirpsValidate
  simp only [htrim, hfields, hmask]
  rw [if_neg hne, if_neg (by omega : ¬ goLen b ≥ 140),
    if_neg (by omega : ¬ goLen b > 140)]

/-- Witness for the validator-agreement theorem at a concrete in-scope
body containing a cased banned word. -/
theorem chirp_validators_agree_witness :
    validateChirp "hello KERFUFFLE world".toList
      = handlerChirpsValidate "hello KERFUFFLE world".toList :=
  chirp_validators_agree _ (by decide) (by decide) (by decide) (by decide)

end Chirpy
